import Mathlib

/-!
Shallow embedding of the DotCodeSchool CLI test runner.

The embedding follows the sources of the repository:
  * src/parsing.rs : the data model of a course file, the loader error type,
    and the per-test execution function JsonTest::execute.
  * src/runner.rs  : the TestRunner state machine (TestRunner::new and
    TestRunner::run) driven by the loop of src/main.rs.

Modelling decisions, each noted again at the definition it concerns:
  * Terminal output (println, log) is modelled by an explicit list of Event
    values emitted by each step; ANSI colouring, upper/lower-casing for
    display, and the progress bar are presentation only and are abstracted
    away, but every print site of the source corresponds to one event.
  * A Rust panic (out-of-bounds Vec indexing, command[0] on an empty token
    list) is modelled by returning none from an Option-valued function.
  * File I/O (load_course) and child-process spawning are external effects:
    the result of load_course is a parameter of TestRunner.new, and the
    outcome of running the command of test (i, j) is an oracle parameter
    exec : Nat -> Nat -> TestResult of TestRunner.run.
  * The success counter is a Rust u32; it increments at most once per test
    of the loaded course, whose in-memory Vec cannot reach 2^32 elements,
    so plain Nat arithmetic is faithful and no wrap-around is modelled.
-/

/-- Result of running a single test (src/parsing.rs, enum TestResult). -/
inductive TestResult where
  | Pass (stdout : String)
  | Fail (stderr : String)
deriving Repr, DecidableEq

/-- A single test (src/parsing.rs, struct JsonTest). -/
structure JsonTest where
  name : String
  optional : Bool
  cmd : String
  message_on_fail : String
  message_on_success : String
deriving Repr, DecidableEq

/-- A test suite (src/parsing.rs, struct JsonTestSuite). -/
structure JsonTestSuite where
  name : String
  optional : Bool
  tests : List JsonTest
deriving Repr, DecidableEq

/-- A course (src/parsing.rs, struct JsonCourse). -/
structure JsonCourse where
  version : String
  name : String
  instructor : String
  course_id : Nat
  suites : List JsonTestSuite
deriving Repr, DecidableEq

/-- Rust Default for JsonCourse: empty strings, zero id, empty suite list. -/
def JsonCourse.default : JsonCourse :=
  { version := "", name := "", instructor := "", course_id := 0, suites := [] }

/-- Loader errors (src/parsing.rs, enum ParsingError).  FileOpenError carries
the path string, CourseFmtError carries the serde error message. -/
inductive ParsingError where
  | FileOpenError (path : String)
  | CourseFmtError (msg : String)
deriving Repr, DecidableEq

/-- The only supported schema version (src/runner.rs, const V_1_0). -/
def V_1_0 : String := "1.0"

/-- Outcome of the operating system's attempt to run a spawned command:
either the spawn itself fails (std::process::Command::output returns Err),
or the child completes with an exit status and captured output.  This is the
external-world parameter of JsonTest.execute. -/
inductive SpawnOutcome where
  | spawnError
  | completed (statusSuccess : Bool) (stdout stderr : String)
deriving Repr, DecidableEq

/-- Accumulator-style tokenizer over a character list: cur holds the
(reversed) characters of the word being read; whitespace ends a word. -/
def splitWsAux : List Char → List Char → List String
  | cur, [] => if cur.isEmpty then [] else [String.mk cur.reverse]
  | cur, c :: rest =>
    if c.isWhitespace then
      if cur.isEmpty then splitWsAux [] rest
      else String.mk cur.reverse :: splitWsAux [] rest
    else splitWsAux (c :: cur) rest

/-- Rust str::split_whitespace: split on whitespace, dropping empty tokens.
(Rust uses the Unicode White_Space class; Char.isWhitespace covers the ASCII
part, which is all the claims exercise.) -/
def splitWhitespace (s : String) : List String :=
  splitWsAux [] s.toList

/-- Rust str::to_lowercase, modelled characterwise with Char.toLower (ASCII
lowering; Rust also lowers non-ASCII letters, which no claim exercises). -/
def strToLower (s : String) : String :=
  String.mk (s.toList.map Char.toLower)

/-- JsonTest::execute (src/parsing.rs).  The command string is tokenized on
whitespace; command[0] is the program (indexing panics, i.e. none, when the
token list is empty); a spawn error is recovered as
Fail "could not execute test"; otherwise the exit status selects
Pass(stdout) or Fail(stderr). -/
def JsonTest.execute (t : JsonTest) (world : SpawnOutcome) : Option TestResult :=
  let command := splitWhitespace t.cmd
  match command with
  | [] => none
  | _ :: _ =>
    match world with
    | .spawnError => some (.Fail "could not execute test")
    | .completed ok out err =>
      some (if ok then .Pass out else .Fail err)

/-- One observable output line of the runner.  Each print/log site of
src/runner.rs maps to one constructor; colouring and display casing are
abstracted.  FinalScore carries the two integers the source feeds into its
f64 score formula. -/
inductive Event where
  | Banner
  | CourseHeader (name instructor : String)
  | ExercisesLeft (n : Nat)
  | SuiteHeader (name : String) (opt : Bool)
  | TestHeader (name : String) (opt : Bool)
  | PassOutput (stdout msg : String)
  | FailOutput (stderr msg : String)
  | ErrorMsg (msg : String)
  | FinalScore (success total : Nat)
  | UnsupportedVersion (v : String)
  | ErrorLog (msg : String)
deriving Repr, DecidableEq

/-- States of the runner (src/runner.rs, enum TestRunnerState). -/
inductive TestRunnerState where
  | Loaded
  | NewSuite (indexSuite : Nat)
  | NewTest (indexSuite indexTest : Nat)
  | Failed (msg : String)
  | Passed
  | Finish
deriving Repr, DecidableEq

/-- The runner (src/runner.rs, struct TestRunner), minus the progress bar,
which is presentation only. -/
structure TestRunner where
  success : Nat
  state : TestRunnerState
  course : JsonCourse
deriving Repr, DecidableEq

/-- Total number of tests of a course, as computed (twice) in
TestRunner::run and once in TestRunner::new: a fold of tests.len() over the
suites. -/
def totalTests (course : JsonCourse) : Nat :=
  course.suites.foldl (fun acc suite => acc + suite.tests.length) 0

/-- TestRunner::new (src/runner.rs).  The result of load_course is the
parameter; on success the runner starts Loaded with zero successes; on a
parse error the inner message is logged (the path for FileOpenError, the
serde message for CourseFmtError), the course is Default with version forced
to "1.0", and the state is Failed "could not parse test file". -/
def TestRunner.new (loadResult : Except ParsingError JsonCourse) :
    TestRunner × List Event :=
  match loadResult with
  | .ok course =>
    ({ success := 0, state := .Loaded, course := course }, [])
  | .error e =>
    let msg := match e with
      | .CourseFmtError m => m
      | .FileOpenError p => p
    ({ success := 0,
       state := .Failed "could not parse test file",
       course := { JsonCourse.default with version := V_1_0 } },
     [.ErrorLog msg])

/-- TestRunner::run (src/runner.rs).  One step of the state machine.  The
version is inspected first: any version other than "1.0" prints an
unsupported-version message and moves to Finish.  Vec indexing panics
(none) when an index is out of bounds.  exec i j is the outcome of running
the command of test j of suite i. -/
def TestRunner.run (exec : Nat → Nat → TestResult) (r : TestRunner) :
    Option (TestRunner × List Event) :=
  let success := r.success
  let course := r.course
  if course.version = V_1_0 then
    match r.state with
    | .Loaded =>
      let exercise_count := totalTests course
      some ({ success := success, state := .NewSuite 0, course := course },
        [.Banner, .CourseHeader course.name course.instructor,
         .ExercisesLeft exercise_count])
    | .NewSuite indexSuite =>
      if hs : indexSuite < course.suites.length then
        let suite := course.suites[indexSuite]
        some ({ success := success, state := .NewTest indexSuite 0,
                course := course },
          [.SuiteHeader suite.name suite.optional])
      else none
    | .NewTest indexSuite indexTest =>
      if hs : indexSuite < course.suites.length then
        let suite := course.suites[indexSuite]
        if ht : indexTest < suite.tests.length then
          let test := suite.tests[indexTest]
          let header : Event := .TestHeader test.name test.optional
          let next : TestRunnerState :=
            if indexTest + 1 < suite.tests.length then
              .NewTest indexSuite (indexTest + 1)
            else if indexSuite + 1 < course.suites.length then
              .NewSuite (indexSuite + 1)
            else .Passed
          match exec indexSuite indexTest with
          | .Pass stdout =>
            some ({ success := success + 1, state := next, course := course },
              [header, .PassOutput stdout test.message_on_success])
          | .Fail stderr =>
            if !test.optional && !suite.optional then
              some ({ success := success,
                      state := .Failed ("Failed test " ++ strToLower test.name),
                      course := course },
                [header, .FailOutput stderr test.message_on_fail])
            else
              some ({ success := success, state := next, course := course },
                [header, .FailOutput stderr test.message_on_fail])
        else none
      else none
    | .Failed msg =>
      some ({ success := success, state := .Finish, course := course },
        [.ErrorMsg msg])
    | .Passed =>
      let exercise_count := totalTests course
      some ({ success := success, state := .Finish, course := course },
        [.FinalScore success exercise_count])
    | .Finish =>
      some ({ success := success, state := .Finish, course := course }, [])
  else
    some ({ success := success, state := .Finish, course := course },
      [.UnsupportedVersion course.version])

/-- Iterated stepping, as performed by the driver loop of src/main.rs,
collecting the emitted events.  none propagates a panic. -/
def TestRunner.iterate (exec : Nat → Nat → TestResult) :
    Nat → TestRunner → Option (TestRunner × List Event)
  | 0, r => some (r, [])
  | n + 1, r =>
    match r.run exec with
    | none => none
    | some (r', evs) =>
      match TestRunner.iterate exec n r' with
      | none => none
      | some (r'', evs') => some (r'', evs ++ evs')

/-- A runner state reachable from a starting runner by some number of
(non-panicking) steps. -/
def Reachable (exec : Nat → Nat → TestResult) (r₀ r : TestRunner) : Prop :=
  ∃ n evs, TestRunner.iterate exec n r₀ = some (r, evs)

/-- A state from which no test can ever run again: Failed or Finish. -/
def TestRunnerState.halted : TestRunnerState → Bool
  | .Failed _ => true
  | .Finish => true
  | _ => false

/-- Whether an event announces the execution of a test (the header printed
just before the command is run). -/
def Event.isTestHeader : Event → Bool
  | .TestHeader _ _ => true
  | _ => false

/-- Whether an event reports a final score. -/
def Event.isFinalScore : Event → Bool
  | .FinalScore _ _ => true
  | _ => false

/-- Whether the character list sub occurs contiguously inside the second
list. -/
def occursIn (sub : List Char) : List Char → Bool
  | [] => sub.isEmpty
  | c :: rest => sub.isPrefixOf (c :: rest) || occursIn sub rest

/-- Whether the string sub occurs as a substring of s. -/
def strOccursIn (sub s : String) : Bool :=
  occursIn sub.toList s.toList

/-- Number of tests of the suites strictly before suite i. -/
def prefixTests (c : JsonCourse) (i : Nat) : Nat :=
  ((c.suites.take i).map (fun suite => suite.tests.length)).sum

/-- Number of tests of suite i (0 when i is out of range). -/
def suiteLen (c : JsonCourse) (i : Nat) : Nat :=
  (c.suites.map (fun suite => suite.tests.length)).getD i 0

theorem foldl_add_tests (l : List JsonTestSuite) (a : Nat) :
    l.foldl (fun acc suite => acc + suite.tests.length) a
      = a + (l.map (fun suite => suite.tests.length)).sum := by
  induction l generalizing a with
  | nil => simp
  | cons x xs ih => simp [ih, Nat.add_assoc]

theorem totalTests_eq_sum (c : JsonCourse) :
    totalTests c = (c.suites.map (fun suite => suite.tests.length)).sum := by
  simpa using foldl_add_tests c.suites 0

theorem suiteLen_eq (c : JsonCourse) (i : Nat) (h : i < c.suites.length) :
    suiteLen c i = (c.suites[i]).tests.length := by
  have hm : i < (c.suites.map (fun suite => suite.tests.length)).length := by
    simpa using h
  rw [suiteLen, List.getD_eq_getElem?_getD, List.getElem?_eq_getElem hm,
    Option.getD_some, List.getElem_map]

theorem prefixTests_succ (c : JsonCourse) (i : Nat) (h : i < c.suites.length) :
    prefixTests c (i + 1) = prefixTests c i + (c.suites[i]).tests.length := by
  have hm : i < (c.suites.map (fun suite => suite.tests.length)).length := by
    simpa using h
  rw [prefixTests, prefixTests, List.map_take, List.map_take,
    List.sum_take_succ _ i hm]
  simp

theorem prefixTests_le_total (c : JsonCourse) (i : Nat) :
    prefixTests c i ≤ totalTests c := by
  calc prefixTests c i
      ≤ prefixTests c i
        + ((c.suites.drop i).map (fun suite => suite.tests.length)).sum :=
        Nat.le_add_right _ _
    _ = totalTests c := by
        rw [totalTests_eq_sum, prefixTests, ← List.sum_append, ← List.map_append,
          List.take_append_drop]

theorem prefixTests_length (c : JsonCourse) :
    prefixTests c c.suites.length = totalTests c := by
  rw [prefixTests, List.take_length, totalTests_eq_sum]

/-- Inductive invariant of the state machine: the success counter is bounded
by the number of tests that lie strictly before the current position. -/
def RunnerInv (r : TestRunner) : Prop :=
  match r.state with
  | .Loaded => r.success = 0
  | .NewSuite i => r.success ≤ prefixTests r.course i
  | .NewTest i j => i < r.course.suites.length ∧ j ≤ suiteLen r.course i ∧
      r.success ≤ prefixTests r.course i + j
  | .Failed _ => r.success ≤ totalTests r.course
  | .Passed => r.success ≤ totalTests r.course
  | .Finish => r.success ≤ totalTests r.course

theorem RunnerInv_le_total (r : TestRunner) (h : RunnerInv r) :
    r.success ≤ totalTests r.course := by
  obtain ⟨s, st, c⟩ := r
  cases st with
  | Loaded => simp only [RunnerInv] at h; simp [h]
  | NewSuite i =>
    simp only [RunnerInv] at h
    exact le_trans h (prefixTests_le_total c i)
  | NewTest i j =>
    simp only [RunnerInv] at h
    obtain ⟨hi, hj, hs⟩ := h
    have h1 : prefixTests c i + j ≤ prefixTests c (i + 1) := by
      rw [prefixTests_succ c i hi, ← suiteLen_eq c i hi]
      exact Nat.add_le_add_left hj _
    exact le_trans hs (le_trans h1 (prefixTests_le_total c (i + 1)))
  | Failed msg => exact h
  | Passed => exact h
  | Finish => exact h

theorem RunnerInv_new (loadResult : Except ParsingError JsonCourse) :
    RunnerInv (TestRunner.new loadResult).1 := by
  cases loadResult with
  | ok course => simp [TestRunner.new, RunnerInv]
  | error e => simp [TestRunner.new, RunnerInv]

theorem RunnerInv_run (exec : Nat → Nat → TestResult) (r r' : TestRunner)
    (evs : List Event) (hInv : RunnerInv r)
    (h : r.run exec = some (r', evs)) : RunnerInv r' := by
  obtain ⟨s, st, c⟩ := r
  by_cases hv : c.version = V_1_0
  · cases st with
    | Loaded =>
      simp only [RunnerInv] at hInv
      simp [TestRunner.run, hv] at h
      obtain ⟨h1, h2⟩ := h
      subst h1
      simp [RunnerInv, prefixTests, hInv]
    | NewSuite i =>
      simp only [RunnerInv] at hInv
      simp only [TestRunner.run, hv, if_true] at h
      split at h
      · simp only [Option.some.injEq, Prod.mk.injEq] at h
        obtain ⟨h1, h2⟩ := h
        subst h1
        refine ⟨by assumption, Nat.zero_le _, ?_⟩
        simpa using hInv
      · exact Option.noConfusion h
    | NewTest i j =>
      simp only [RunnerInv] at hInv
      obtain ⟨hi, hj, hsucc⟩ := hInv
      simp only [TestRunner.run, hv, if_true] at h
      rw [dif_pos hi] at h
      by_cases hj' : j < (c.suites[i]).tests.length
      rotate_left
      · rw [dif_neg hj'] at h
        exact Option.noConfusion h
      rw [dif_pos hj'] at h
      have hnext :
          ∀ t : Nat, t ≤ prefixTests c i + j + 1 →
            RunnerInv ⟨t,
              if j + 1 < (c.suites[i]).tests.length then
                TestRunnerState.NewTest i (j + 1)
              else if i + 1 < c.suites.length then
                TestRunnerState.NewSuite (i + 1)
              else TestRunnerState.Passed, c⟩ := by
        intro t ht
        by_cases h1 : j + 1 < (c.suites[i]).tests.length
        · simp only [RunnerInv, h1, if_true]
          refine ⟨hi, ?_, ?_⟩
          · rw [suiteLen_eq c i hi]
            exact h1.le
          · omega
        · by_cases h2 : i + 1 < c.suites.length
          · simp only [RunnerInv, h1, h2, if_false, if_true]
            have hlen : (c.suites[i]).tests.length = j + 1 := by omega
            rw [prefixTests_succ c i hi, hlen]
            omega
          · simp only [RunnerInv, h1, h2, if_false]
            have hlast : c.suites.length = i + 1 := by omega
            have hlen : (c.suites[i]).tests.length = j + 1 := by omega
            have htot : totalTests c = prefixTests c i + j + 1 := by
              rw [← prefixTests_length c, hlast, prefixTests_succ c i hi, hlen]
              omega
            omega
      have hFailedInv : RunnerInv ⟨s,
          TestRunnerState.Failed
            ("Failed test " ++ strToLower ((c.suites[i]).tests[j]).name),
          c⟩ := by
        simp only [RunnerInv]
        have hstep : prefixTests c i + j ≤ prefixTests c (i + 1) := by
          rw [prefixTests_succ c i hi]
          omega
        exact le_trans hsucc (le_trans hstep (prefixTests_le_total c (i + 1)))
      rcases hres : exec i j with out | err
      · rw [hres] at h
        simp only [Option.some.injEq, Prod.mk.injEq] at h
        obtain ⟨h1, h2⟩ := h
        subst h1
        exact hnext (s + 1) (by omega)
      · rw [hres] at h
        dsimp only at h
        by_cases hopt : (!((c.suites[i]).tests[j]).optional
            && !(c.suites[i]).optional) = true
        · rw [if_pos hopt] at h
          simp only [Option.some.injEq, Prod.mk.injEq] at h
          obtain ⟨h1, h2⟩ := h
          subst h1
          exact hFailedInv
        · rw [if_neg hopt] at h
          simp only [Option.some.injEq, Prod.mk.injEq] at h
          obtain ⟨h1, h2⟩ := h
          subst h1
          exact hnext s (by omega)
    | Failed msg =>
      simp only [RunnerInv] at hInv
      simp [TestRunner.run, hv] at h
      obtain ⟨h1, h2⟩ := h
      subst h1
      exact hInv
    | Passed =>
      simp only [RunnerInv] at hInv
      simp [TestRunner.run, hv] at h
      obtain ⟨h1, h2⟩ := h
      subst h1
      exact hInv
    | Finish =>
      simp only [RunnerInv] at hInv
      simp [TestRunner.run, hv] at h
      obtain ⟨h1, h2⟩ := h
      subst h1
      exact hInv
  · have hle : s ≤ totalTests c :=
      RunnerInv_le_total ⟨s, st, c⟩ hInv
    simp [TestRunner.run, hv] at h
    obtain ⟨h1, h2⟩ := h
    subst h1
    exact hle

theorem RunnerInv_iterate (exec : Nat → Nat → TestResult) (n : Nat)
    (r r' : TestRunner) (evs : List Event) (hInv : RunnerInv r)
    (h : TestRunner.iterate exec n r = some (r', evs)) : RunnerInv r' := by
  induction n generalizing r evs with
  | zero =>
    simp only [TestRunner.iterate, Option.some.injEq, Prod.mk.injEq] at h
    obtain ⟨h1, h2⟩ := h
    subst h1
    exact hInv
  | succ n ih =>
    simp only [TestRunner.iterate] at h
    cases hrun : TestRunner.run exec r with
    | none => rw [hrun] at h; exact Option.noConfusion h
    | some p =>
      obtain ⟨r1, evs1⟩ := p
      rw [hrun] at h
      dsimp only at h
      cases hit : TestRunner.iterate exec n r1 with
      | none => rw [hit] at h; exact Option.noConfusion h
      | some q =>
        obtain ⟨r2, evs2⟩ := q
        rw [hit] at h
        dsimp only at h
        simp only [Option.some.injEq, Prod.mk.injEq] at h
        obtain ⟨h1, h2⟩ := h
        subst h1
        exact ih r1 evs2 (RunnerInv_run exec r r1 evs1 hInv hrun) hit

theorem success_step (exec : Nat → Nat → TestResult) (r r' : TestRunner)
    (evs : List Event) (h : r.run exec = some (r', evs)) :
    (r'.success = r.success ∨ r'.success = r.success + 1) ∧
    (r'.success = r.success + 1 ↔
      ∃ i j out, r.state = .NewTest i j ∧ r.course.version = V_1_0 ∧
        exec i j = .Pass out) ∧
    (∀ msg, r.state = .Failed msg → r'.success = r.success) ∧
    (r.state = .Passed → r'.success = r.success) ∧
    (r.state = .Finish → r'.success = r.success) := by
  obtain ⟨s, st, c⟩ := r
  by_cases hv : c.version = V_1_0
  · cases st with
    | Loaded =>
      simp [TestRunner.run, hv] at h
      obtain ⟨h1, h2⟩ := h
      subst h1
      simp [hv]
    | NewSuite i =>
      simp only [TestRunner.run, hv, if_true] at h
      by_cases hi : i < c.suites.length
      · rw [dif_pos hi] at h
        simp only [Option.some.injEq, Prod.mk.injEq] at h
        obtain ⟨h1, h2⟩ := h
        subst h1
        simp
      · rw [dif_neg hi] at h
        exact Option.noConfusion h
    | NewTest i j =>
      simp only [TestRunner.run, hv, if_true] at h
      by_cases hi : i < c.suites.length
      rotate_left
      · rw [dif_neg hi] at h
        exact Option.noConfusion h
      rw [dif_pos hi] at h
      by_cases hj : j < (c.suites[i]).tests.length
      rotate_left
      · rw [dif_neg hj] at h
        exact Option.noConfusion h
      rw [dif_pos hj] at h
      rcases hres : exec i j with out | err
      · rw [hres] at h
        dsimp only at h
        simp only [Option.some.injEq, Prod.mk.injEq] at h
        obtain ⟨h1, h2⟩ := h
        subst h1
        refine ⟨Or.inr rfl, ?_, ?_, ?_, ?_⟩
        · simp only [true_iff]
          exact ⟨i, j, out, rfl, hv, hres⟩
        · intro msg hmsg; exact TestRunnerState.noConfusion hmsg
        · intro hmsg; exact TestRunnerState.noConfusion hmsg
        · intro hmsg; exact TestRunnerState.noConfusion hmsg
      · rw [hres] at h
        dsimp only at h
        have hsame : r'.success = s := by
          by_cases hopt : (!((c.suites[i]).tests[j]).optional
              && !(c.suites[i]).optional) = true
          · rw [if_pos hopt] at h
            simp only [Option.some.injEq, Prod.mk.injEq] at h
            obtain ⟨h1, h2⟩ := h
            subst h1
            rfl
          · rw [if_neg hopt] at h
            simp only [Option.some.injEq, Prod.mk.injEq] at h
            obtain ⟨h1, h2⟩ := h
            subst h1
            rfl
        refine ⟨Or.inl hsame, ?_, ?_, ?_, ?_⟩
        · constructor
          · intro habs
            rw [hsame] at habs
            dsimp only at habs
            omega
          · rintro ⟨i', j', out, hstate, hver, hpass⟩
            have hii : i' = i ∧ j' = j := by
              cases hstate
              exact ⟨rfl, rfl⟩
            obtain ⟨hii1, hii2⟩ := hii
            subst hii1; subst hii2
            rw [hres] at hpass
            exact TestResult.noConfusion hpass
        · intro msg hmsg; exact TestRunnerState.noConfusion hmsg
        · intro hmsg; exact TestRunnerState.noConfusion hmsg
        · intro hmsg; exact TestRunnerState.noConfusion hmsg
    | Failed msg =>
      simp [TestRunner.run, hv] at h
      obtain ⟨h1, h2⟩ := h
      subst h1
      simp
    | Passed =>
      simp [TestRunner.run, hv] at h
      obtain ⟨h1, h2⟩ := h
      subst h1
      simp
    | Finish =>
      simp [TestRunner.run, hv] at h
      obtain ⟨h1, h2⟩ := h
      subst h1
      simp
  · simp [TestRunner.run, hv] at h
    obtain ⟨h1, h2⟩ := h
    subst h1
    refine ⟨Or.inl rfl, ?_, fun _ _ => rfl, fun _ => rfl, fun _ => rfl⟩
    constructor
    · intro habs
      dsimp only at habs
      omega
    · rintro ⟨i', j', out, hstate, hver, hpass⟩
      exact absurd hver hv

theorem halted_run (exec : Nat → Nat → TestResult) (r : TestRunner)
    (h : r.state.halted = true) :
    ∃ r' evs, r.run exec = some (r', evs) ∧ r'.state.halted = true ∧
      r'.success = r.success ∧ r'.course = r.course ∧
      evs.all (fun ev => !ev.isTestHeader && !ev.isFinalScore) = true := by
  obtain ⟨s, st, c⟩ := r
  by_cases hv : c.version = V_1_0
  · cases st with
    | Failed msg =>
      refine ⟨⟨s, .Finish, c⟩, [.ErrorMsg msg], ?_, rfl, rfl, rfl, rfl⟩
      simp [TestRunner.run, hv]
    | Finish =>
      refine ⟨⟨s, .Finish, c⟩, [], ?_, rfl, rfl, rfl, rfl⟩
      simp [TestRunner.run, hv]
    | Loaded => simp [TestRunnerState.halted] at h
    | NewSuite i => simp [TestRunnerState.halted] at h
    | NewTest i j => simp [TestRunnerState.halted] at h
    | Passed => simp [TestRunnerState.halted] at h
  · refine ⟨⟨s, .Finish, c⟩, [.UnsupportedVersion c.version], ?_, rfl, rfl, rfl, rfl⟩
    simp [TestRunner.run, hv]

theorem halted_iterate (exec : Nat → Nat → TestResult) (n : Nat)
    (r : TestRunner) (h : r.state.halted = true) :
    ∃ r' evs, TestRunner.iterate exec n r = some (r', evs) ∧
      r'.state.halted = true ∧ r'.success = r.success ∧ r'.course = r.course ∧
      evs.all (fun ev => !ev.isTestHeader && !ev.isFinalScore) = true := by
  induction n generalizing r with
  | zero => exact ⟨r, [], rfl, h, rfl, rfl, rfl⟩
  | succ n ih =>
    obtain ⟨r1, evs1, hrun, h1, hs1, hc1, he1⟩ := halted_run exec r h
    obtain ⟨r2, evs2, hit, h2, hs2, hc2, he2⟩ := ih r1 h1
    refine ⟨r2, evs1 ++ evs2, ?_, h2, by rw [hs2, hs1], by rw [hc2, hc1], ?_⟩
    · simp only [TestRunner.iterate]
      rw [hrun]
      dsimp only
      rw [hit]
    · rw [List.all_append, he1, he2]
      rfl

theorem finish_run (exec : Nat → Nat → TestResult) (r : TestRunner)
    (h : r.state = .Finish) :
    ∃ evs, r.run exec = some (⟨r.success, .Finish, r.course⟩, evs) ∧
      evs.all (fun ev => !ev.isTestHeader && !ev.isFinalScore) = true := by
  obtain ⟨s, st, c⟩ := r
  dsimp only at h
  subst h
  by_cases hv : c.version = V_1_0
  · exact ⟨[], by simp [TestRunner.run, hv], rfl⟩
  · exact ⟨[.UnsupportedVersion c.version], by simp [TestRunner.run, hv], rfl⟩

theorem finish_iterate (exec : Nat → Nat → TestResult) (n : Nat)
    (r : TestRunner) (h : r.state = .Finish) :
    ∃ r' evs, TestRunner.iterate exec n r = some (r', evs) ∧
      r'.state = .Finish ∧ r'.success = r.success ∧ r'.course = r.course ∧
      evs.all (fun ev => !ev.isTestHeader && !ev.isFinalScore) = true := by
  induction n generalizing r with
  | zero => exact ⟨r, [], rfl, h, rfl, rfl, rfl⟩
  | succ n ih =>
    obtain ⟨evs1, hrun, he1⟩ := finish_run exec r h
    obtain ⟨r2, evs2, hit, h2, hs2, hc2, he2⟩ :=
      ih ⟨r.success, .Finish, r.course⟩ rfl
    refine ⟨r2, evs1 ++ evs2, ?_, h2, hs2, hc2, ?_⟩
    · simp only [TestRunner.iterate]
      rw [hrun]
      dsimp only
      rw [hit]
    · rw [List.all_append, he1, he2]
      rfl

/-- Claim C1: for every course containing a failing test whose own optional
flag is false and whose enclosing suite's optional flag is false, the step
from NewTest(i,j) transitions to Failed("Failed test <name>") naming that
test, Failed steps to Finish, and no test after (i,j) in traversal order is
ever executed (every later step stays in a halted state and emits no test
header). -/
theorem mandatory_failure_short_circuits (exec : Nat → Nat → TestResult)
    (course : JsonCourse) (s i j : Nat) (e : String)
    (hv : course.version = V_1_0)
    (hs : i < course.suites.length)
    (ht : j < (course.suites[i]).tests.length)
    (hfail : exec i j = .Fail e)
    (hto : ((course.suites[i]).tests[j]).optional = false)
    (hso : (course.suites[i]).optional = false) :
    TestRunner.run exec ⟨s, .NewTest i j, course⟩ =
      some (⟨s, .Failed ("Failed test "
          ++ strToLower ((course.suites[i]).tests[j]).name), course⟩,
        [.TestHeader ((course.suites[i]).tests[j]).name
            ((course.suites[i]).tests[j]).optional,
         .FailOutput e ((course.suites[i]).tests[j]).message_on_fail]) ∧
    TestRunner.run exec ⟨s, .Failed ("Failed test "
        ++ strToLower ((course.suites[i]).tests[j]).name), course⟩ =
      some (⟨s, .Finish, course⟩,
        [.ErrorMsg ("Failed test "
          ++ strToLower ((course.suites[i]).tests[j]).name)]) ∧
    ∀ n, ∃ r' evs, TestRunner.iterate exec n ⟨s, .Failed ("Failed test "
        ++ strToLower ((course.suites[i]).tests[j]).name), course⟩ =
        some (r', evs) ∧
      r'.state.halted = true ∧
      evs.all (fun ev => !ev.isTestHeader && !ev.isFinalScore) = true := by
  have hcond : (!((course.suites[i]).tests[j]).optional
      && !(course.suites[i]).optional) = true := by
    rw [hto, hso]
    rfl
  refine ⟨?_, ?_, ?_⟩
  · simp only [TestRunner.run, hv, if_true]
    rw [dif_pos hs, dif_pos ht, hfail]
    dsimp only
    rw [if_pos hcond]
  · simp [TestRunner.run, hv]
  · intro n
    obtain ⟨r', evs, hit, hh, hsu, hc, he⟩ := halted_iterate exec n
      ⟨s, .Failed ("Failed test "
        ++ strToLower ((course.suites[i]).tests[j]).name), course⟩ rfl
    exact ⟨r', evs, hit, hh, he⟩

def cC1 : JsonCourse :=
  ⟨"1.0", "c", "i", 0, [⟨"s1", false, [⟨"t1", false, "x", "fmsg", "ok"⟩]⟩]⟩

/-- Witness for C1 at a concrete one-test course whose only test fails. -/
theorem mandatory_failure_short_circuits_witness :
    cC1.version = V_1_0 ∧
    TestRunner.run (fun _ _ => .Fail "boom") ⟨0, .NewTest 0 0, cC1⟩ =
      some (⟨0, .Failed "Failed test t1", cC1⟩,
        [.TestHeader "t1" false, .FailOutput "boom" "fmsg"]) :=
  ⟨rfl, (mandatory_failure_short_circuits (fun _ _ => .Fail "boom") cC1 0 0 0
    "boom" rfl (by decide) (by decide) rfl rfl rfl).1⟩

/-- Claim C2: a failing test halts the run (state Failed) exactly when both
the test and its enclosing suite are mandatory, and when either is optional
the position advances to the next test, the next suite, or Passed. -/
theorem failing_test_halt_iff_both_mandatory (exec : Nat → Nat → TestResult)
    (course : JsonCourse) (s i j : Nat) (e : String)
    (hv : course.version = V_1_0)
    (hs : i < course.suites.length)
    (ht : j < (course.suites[i]).tests.length)
    (hfail : exec i j = .Fail e) :
    ∃ r' evs, TestRunner.run exec ⟨s, .NewTest i j, course⟩ =
        some (r', evs) ∧
      r'.success = s ∧ r'.course = course ∧
      (r'.state = .Failed ("Failed test "
          ++ strToLower ((course.suites[i]).tests[j]).name) ↔
        (((course.suites[i]).tests[j]).optional = false ∧
          (course.suites[i]).optional = false)) ∧
      ((((course.suites[i]).tests[j]).optional = true ∨
          (course.suites[i]).optional = true) →
        r'.state = (if j + 1 < (course.suites[i]).tests.length then
            TestRunnerState.NewTest i (j + 1)
          else if i + 1 < course.suites.length then
            TestRunnerState.NewSuite (i + 1)
          else TestRunnerState.Passed)) := by
  by_cases hopt : (!((course.suites[i]).tests[j]).optional
      && !(course.suites[i]).optional) = true
  · refine ⟨⟨s, .Failed ("Failed test "
        ++ strToLower ((course.suites[i]).tests[j]).name), course⟩,
      [.TestHeader ((course.suites[i]).tests[j]).name
          ((course.suites[i]).tests[j]).optional,
        .FailOutput e ((course.suites[i]).tests[j]).message_on_fail],
      ?_, rfl, rfl, ?_, ?_⟩
    · simp only [TestRunner.run, hv, if_true]
      rw [dif_pos hs, dif_pos ht, hfail]
      dsimp only
      rw [if_pos hopt]
    · simp only [Bool.and_eq_true, Bool.not_eq_true'] at hopt
      exact ⟨fun _ => hopt, fun _ => rfl⟩
    · intro hcase
      exfalso
      simp only [Bool.and_eq_true, Bool.not_eq_true'] at hopt
      rcases hcase with hca | hcb
      · rw [hopt.1] at hca
        exact Bool.noConfusion hca
      · rw [hopt.2] at hcb
        exact Bool.noConfusion hcb
  · refine ⟨⟨s, if j + 1 < (course.suites[i]).tests.length then
        TestRunnerState.NewTest i (j + 1)
      else if i + 1 < course.suites.length then
        TestRunnerState.NewSuite (i + 1)
      else TestRunnerState.Passed, course⟩,
      [.TestHeader ((course.suites[i]).tests[j]).name
          ((course.suites[i]).tests[j]).optional,
        .FailOutput e ((course.suites[i]).tests[j]).message_on_fail],
      ?_, rfl, rfl, ?_, fun _ => rfl⟩
    · simp only [TestRunner.run, hv, if_true]
      rw [dif_pos hs, dif_pos ht, hfail]
      dsimp only
      rw [if_neg hopt]
    · constructor
      · intro habs
        dsimp only at habs
        exfalso
        by_cases h1 : j + 1 < (course.suites[i]).tests.length
        · rw [if_pos h1] at habs
          exact TestRunnerState.noConfusion habs
        · rw [if_neg h1] at habs
          by_cases h2 : i + 1 < course.suites.length
          · rw [if_pos h2] at habs
            exact TestRunnerState.noConfusion habs
          · rw [if_neg h2] at habs
            exact TestRunnerState.noConfusion habs
      · rintro ⟨hto, hso⟩
        exfalso
        rw [hto, hso] at hopt
        exact hopt rfl

def cC2 : JsonCourse :=
  ⟨"1.0", "c", "i", 0, [⟨"s", true, [⟨"t", false, "x", "f", "ok"⟩]⟩]⟩

/-- Witness for C2: a mandatory test failing inside an optional suite does
not halt; the runner advances (here to Passed, the last position). -/
theorem failing_test_halt_iff_both_mandatory_witness :
    0 < cC2.suites.length ∧
    (∃ r' evs, TestRunner.run (fun _ _ => .Fail "e")
        ⟨0, .NewTest 0 0, cC2⟩ = some (r', evs) ∧
      r'.success = 0 ∧ r'.course = cC2 ∧
      (r'.state = .Failed ("Failed test " ++ strToLower "t") ↔
        (false = false ∧ true = false)) ∧
      ((false = true ∨ true = true) →
        r'.state = (if 0 + 1 < 1 then TestRunnerState.NewTest 0 (0 + 1)
          else if 0 + 1 < 1 then TestRunnerState.NewSuite (0 + 1)
          else TestRunnerState.Passed))) :=
  ⟨by decide, failing_test_halt_iff_both_mandatory (fun _ _ => .Fail "e")
    cC2 0 0 0 "e" rfl (by decide) (by decide) rfl⟩

def cC4 : JsonCourse :=
  ⟨"1.0", "c", "i", 0, [⟨"s", false, [⟨"t", false, "x", "f", "ok"⟩]⟩]⟩

/-- Counterexample to claim C4 as stated: at the last position of a course
whose only (mandatory) test fails, no test and no suite remain, so the
claimed transition target is Passed, but the step goes to Failed instead. -/
theorem traversal_next_position_counterexample :
    TestRunner.run (fun _ _ => TestResult.Fail "boom") ⟨0, .NewTest 0 0, cC4⟩ =
      some (⟨0, .Failed "Failed test t", cC4⟩,
        [.TestHeader "t" false, .FailOutput "boom" "f"]) ∧
    ¬(0 + 1 < suiteLen cC4 0) ∧ ¬(0 + 1 < cC4.suites.length) ∧
    TestRunnerState.Failed "Failed test t" ≠ TestRunnerState.Passed :=
  ⟨rfl, by decide, by decide, by decide⟩

/-- Claim C4 as amended: every NewSuite(i) step enters the suite at test 0,
and every step from NewTest(i,j) that does not transition to Failed (the
test passes, or the test or its suite is optional) moves the position to
exactly NewTest(i,j+1) if a test remains in suite i, else NewSuite(i+1) if
a suite remains, else Passed. -/
theorem traversal_declaration_order (exec : Nat → Nat → TestResult)
    (course : JsonCourse) (s i j : Nat)
    (hv : course.version = V_1_0)
    (hs : i < course.suites.length) :
    (∃ evs, TestRunner.run exec ⟨s, .NewSuite i, course⟩ =
      some (⟨s, .NewTest i 0, course⟩, evs)) ∧
    (∀ ht : j < (course.suites[i]).tests.length,
      ((∃ out, exec i j = .Pass out) ∨
        ((course.suites[i]).tests[j]).optional = true ∨
        (course.suites[i]).optional = true) →
      ∃ r' evs, TestRunner.run exec ⟨s, .NewTest i j, course⟩ =
          some (r', evs) ∧
        r'.state = (if j + 1 < (course.suites[i]).tests.length then
            TestRunnerState.NewTest i (j + 1)
          else if i + 1 < course.suites.length then
            TestRunnerState.NewSuite (i + 1)
          else TestRunnerState.Passed)) := by
  constructor
  · refine ⟨[.SuiteHeader (course.suites[i]).name
      (course.suites[i]).optional], ?_⟩
    simp only [TestRunner.run, hv, if_true]
    rw [dif_pos hs]
  · intro ht hcase
    rcases hres : exec i j with out | err
    · refine ⟨⟨s + 1, if j + 1 < (course.suites[i]).tests.length then
          TestRunnerState.NewTest i (j + 1)
        else if i + 1 < course.suites.length then
          TestRunnerState.NewSuite (i + 1)
        else TestRunnerState.Passed, course⟩,
        [.TestHeader ((course.suites[i]).tests[j]).name
            ((course.suites[i]).tests[j]).optional,
          .PassOutput out ((course.suites[i]).tests[j]).message_on_success],
        ?_, rfl⟩
      simp only [TestRunner.run, hv, if_true]
      rw [dif_pos hs, dif_pos ht, hres]
    · have hopt : ((course.suites[i]).tests[j]).optional = true ∨
          (course.suites[i]).optional = true := by
        rcases hcase with ⟨out, hpass⟩ | h1 | h2
        · rw [hres] at hpass
          exact TestResult.noConfusion hpass
        · exact Or.inl h1
        · exact Or.inr h2
      have hcond : ¬((!((course.suites[i]).tests[j]).optional
          && !(course.suites[i]).optional) = true) := by
        rcases hopt with h1 | h1 <;> simp [h1]
      refine ⟨⟨s, if j + 1 < (course.suites[i]).tests.length then
          TestRunnerState.NewTest i (j + 1)
        else if i + 1 < course.suites.length then
          TestRunnerState.NewSuite (i + 1)
        else TestRunnerState.Passed, course⟩,
        [.TestHeader ((course.suites[i]).tests[j]).name
            ((course.suites[i]).tests[j]).optional,
          .FailOutput err ((course.suites[i]).tests[j]).message_on_fail],
        ?_, rfl⟩
      simp only [TestRunner.run, hv, if_true]
      rw [dif_pos hs, dif_pos ht, hres]
      dsimp only
      rw [if_neg hcond]

def cC4w : JsonCourse :=
  ⟨"1.0", "c", "i", 0,
    [⟨"s", false, [⟨"t1", false, "x", "f", "ok"⟩, ⟨"t2", false, "y", "f", "ok"⟩]⟩]⟩

/-- Witness for the amended C4 at a two-test suite whose first test passes:
the suite is entered at test 0 and the position advances to NewTest(0,1). -/
theorem traversal_declaration_order_witness :
    0 < cC4w.suites.length ∧
    (∃ evs, TestRunner.run (fun _ _ => TestResult.Pass "o")
        ⟨0, .NewSuite 0, cC4w⟩ = some (⟨0, .NewTest 0 0, cC4w⟩, evs)) ∧
    (∃ r' evs, TestRunner.run (fun _ _ => TestResult.Pass "o")
        ⟨0, .NewTest 0 0, cC4w⟩ = some (r', evs) ∧
      r'.state = (if 0 + 1 < 2 then TestRunnerState.NewTest 0 (0 + 1)
        else if 0 + 1 < 1 then TestRunnerState.NewSuite (0 + 1)
        else TestRunnerState.Passed)) :=
  ⟨by decide,
    (traversal_declaration_order (fun _ _ => TestResult.Pass "o") cC4w 0 0 0
      rfl (by decide)).1,
    (traversal_declaration_order (fun _ _ => TestResult.Pass "o") cC4w 0 0 0
      rfl (by decide)).2 (by decide) (Or.inl ⟨"o", rfl⟩)⟩

/-- Claim C5: the loader accepts a course of any version; a runner built
from it starts Loaded with no error output, and its first traversal step on
a version other than "1.0" reports the unsupported version and moves
directly to Finish, executing no test and reporting no score, for ever
after. -/
theorem unsupported_version_lazy_reject (exec : Nat → Nat → TestResult)
    (course : JsonCourse) (hv : course.version ≠ V_1_0) :
    (TestRunner.new (.ok course)).1.state = .Loaded ∧
    (TestRunner.new (.ok course)).2 = [] ∧
    TestRunner.run exec (TestRunner.new (.ok course)).1 =
      some (⟨0, .Finish, course⟩, [.UnsupportedVersion course.version]) ∧
    ([Event.UnsupportedVersion course.version]).all
      (fun ev => !ev.isTestHeader && !ev.isFinalScore) = true ∧
    (∀ n, ∃ r' evs, TestRunner.iterate exec n ⟨0, .Finish, course⟩ =
        some (r', evs) ∧
      r'.state = .Finish ∧ r'.success = 0 ∧
      evs.all (fun ev => !ev.isTestHeader && !ev.isFinalScore) = true) := by
  refine ⟨rfl, rfl, ?_, rfl, ?_⟩
  · show TestRunner.run exec ⟨0, .Loaded, course⟩ = _
    simp [TestRunner.run, hv]
  · intro n
    obtain ⟨r', evs, hit, hst, hsu, hc, he⟩ :=
      finish_iterate exec n ⟨0, .Finish, course⟩ rfl
    exact ⟨r', evs, hit, hst, hsu, he⟩

def cC5 : JsonCourse :=
  ⟨"2.0", "c", "i", 0, [⟨"s", false, [⟨"t", false, "x", "f", "ok"⟩]⟩]⟩

/-- Witness for C5 at a well-formed course declaring version "2.0". -/
theorem unsupported_version_lazy_reject_witness :
    cC5.version ≠ V_1_0 ∧
    TestRunner.run (fun _ _ => TestResult.Pass "o")
        (TestRunner.new (.ok cC5)).1 =
      some (⟨0, .Finish, cC5⟩, [.UnsupportedVersion "2.0"]) :=
  ⟨by decide, (unsupported_version_lazy_reject (fun _ _ => TestResult.Pass "o")
    cC5 (by decide)).2.2.1⟩

theorem isPrefixOf_self (l : List Char) : l.isPrefixOf l = true := by
  induction l with
  | nil => rfl
  | cons c cs ih => simp [List.isPrefixOf, ih]

theorem strOccursIn_self (p : String) : strOccursIn p p = true := by
  rw [strOccursIn]
  cases hp : p.toList with
  | nil => rfl
  | cons c cs =>
    rw [occursIn, isPrefixOf_self]
    rfl

/-- Counterexample to claim C6 as stated: a schema-mismatch load error for
path "./tests.json" is reported with the format error message alone, which
does not name the file path. -/
theorem load_format_error_report_lacks_path :
    (TestRunner.new (.error
        (.CourseFmtError "expected value at line 1 column 1"))).2 =
      [.ErrorLog "expected value at line 1 column 1"] ∧
    strOccursIn "./tests.json" "expected value at line 1 column 1" = false :=
  ⟨rfl, rfl⟩

/-- Claim C6 as amended: for every load error, construction yields a runner
already on the failed terminal trajectory: its only construction-time output
is one error report, which for an unreadable file is the file path itself
(and for a schema mismatch is the format error message); from there every
step stays halted, never executes a test, never reports a score, keeps the
success counter at zero, and never panics. -/
theorem load_error_failed_trajectory (p m : String)
    (exec : Nat → Nat → TestResult) :
    TestRunner.new (.error (.FileOpenError p)) =
      (⟨0, .Failed "could not parse test file",
        { JsonCourse.default with version := V_1_0 }⟩, [.ErrorLog p]) ∧
    strOccursIn p p = true ∧
    TestRunner.new (.error (.CourseFmtError m)) =
      (⟨0, .Failed "could not parse test file",
        { JsonCourse.default with version := V_1_0 }⟩, [.ErrorLog m]) ∧
    (∀ n, ∃ r' evs, TestRunner.iterate exec n
        ⟨0, .Failed "could not parse test file",
          { JsonCourse.default with version := V_1_0 }⟩ = some (r', evs) ∧
      r'.state.halted = true ∧ r'.success = 0 ∧
      evs.all (fun ev => !ev.isTestHeader && !ev.isFinalScore) = true) := by
  refine ⟨rfl, strOccursIn_self p, rfl, ?_⟩
  intro n
  obtain ⟨r', evs, hit, hh, hsu, hc, he⟩ := halted_iterate exec n
    ⟨0, .Failed "could not parse test file",
      { JsonCourse.default with version := V_1_0 }⟩ rfl
  exact ⟨r', evs, hit, hh, hsu, he⟩

def cC7 : JsonCourse := ⟨"1.0", "Course", "Instructor", 0, []⟩

/-- Claim C7 (code bug): on a course with zero suites the Loaded step still
moves to NewSuite(0), and the NewSuite(0) step indexes suites[0] out of
bounds (a panic, modelled as none); Passed is never reached, so no 100%
score for the empty course is ever reported. -/
theorem zero_suites_course_panics :
    TestRunner.run (fun _ _ => TestResult.Pass "o") ⟨0, .Loaded, cC7⟩ =
      some (⟨0, .NewSuite 0, cC7⟩,
        [.Banner, .CourseHeader "Course" "Instructor", .ExercisesLeft 0]) ∧
    TestRunner.run (fun _ _ => TestResult.Pass "o") ⟨0, .NewSuite 0, cC7⟩ =
      none ∧
    (∀ n r' evs, TestRunner.iterate (fun _ _ => TestResult.Pass "o") n
        ⟨0, .Loaded, cC7⟩ = some (r', evs) →
      r'.state ≠ TestRunnerState.Passed) := by
  refine ⟨rfl, rfl, ?_⟩
  intro n r' evs h hPassed
  match n with
  | 0 =>
    simp only [TestRunner.iterate, Option.some.injEq, Prod.mk.injEq] at h
    obtain ⟨h1, h2⟩ := h
    rw [← h1] at hPassed
    exact TestRunnerState.noConfusion hPassed
  | 1 =>
    have hone : TestRunner.iterate (fun _ _ => TestResult.Pass "o") 1
        ⟨0, .Loaded, cC7⟩ = some (⟨0, .NewSuite 0, cC7⟩,
          [.Banner, .CourseHeader "Course" "Instructor",
            .ExercisesLeft 0]) := rfl
    rw [hone] at h
    simp only [Option.some.injEq, Prod.mk.injEq] at h
    obtain ⟨h1, h2⟩ := h
    rw [← h1] at hPassed
    exact TestRunnerState.noConfusion hPassed
  | (k + 2) =>
    have hnone : TestRunner.iterate (fun _ _ => TestResult.Pass "o") (k + 2)
        ⟨0, .Loaded, cC7⟩ = none := rfl
    rw [hnone] at h
    exact Option.noConfusion h

def cC8 : JsonCourse :=
  ⟨"1.0", "Course", "Instructor", 0,
    [⟨"empty", false, []⟩, ⟨"rest", false, [⟨"t", false, "x", "f", "ok"⟩]⟩]⟩

/-- Claim C8 (code bug): on a suite with zero tests, the NewSuite step
enters the suite at NewTest(i,0), and the NewTest step indexes tests[0] out
of bounds (a panic, modelled as none) instead of continuing to the next
suite. -/
theorem empty_suite_step_panics :
    TestRunner.run (fun _ _ => TestResult.Pass "o") ⟨0, .NewSuite 0, cC8⟩ =
      some (⟨0, .NewTest 0 0, cC8⟩, [.SuiteHeader "empty" false]) ∧
    TestRunner.run (fun _ _ => TestResult.Pass "o") ⟨0, .NewTest 0 0, cC8⟩ =
      none :=
  ⟨rfl, rfl⟩

/-- Claim C9 (code bug): a test whose command tokenizes to zero tokens makes
JsonTest::execute index command[0] out of bounds (a panic, modelled as
none) instead of recovering into a Fail outcome; a non-empty command whose
spawn fails is recovered into Fail "could not execute test". -/
theorem empty_command_execute_panics :
    JsonTest.execute ⟨"t", false, "", "f", "ok"⟩ SpawnOutcome.spawnError =
      none ∧
    JsonTest.execute ⟨"t", false, " \t ", "f", "ok"⟩
      (SpawnOutcome.completed true "o" "e") = none ∧
    JsonTest.execute ⟨"t", false, "cargo test", "f", "ok"⟩
      SpawnOutcome.spawnError = some (TestResult.Fail "could not execute test") :=
  ⟨rfl, rfl, rfl⟩

/-- Claim C10: in every state reachable from construction the success
counter is at most the total number of tests; every step changes it by 0 or
+1, incrementing exactly when the step executes a test whose outcome is
Pass; and steps from Failed, Passed, and Finish leave it unchanged. -/
theorem success_counter_invariant (exec : Nat → Nat → TestResult)
    (loadResult : Except ParsingError JsonCourse) (r : TestRunner)
    (hr : Reachable exec (TestRunner.new loadResult).1 r) :
    r.success ≤ totalTests r.course ∧
    ∀ r' evs, r.run exec = some (r', evs) →
      (r'.success = r.success ∨ r'.success = r.success + 1) ∧
      (r'.success = r.success + 1 ↔
        ∃ i j out, r.state = .NewTest i j ∧ r.course.version = V_1_0 ∧
          exec i j = .Pass out) ∧
      (∀ msg, r.state = .Failed msg → r'.success = r.success) ∧
      (r.state = .Passed → r'.success = r.success) ∧
      (r.state = .Finish → r'.success = r.success) := by
  obtain ⟨n, evs, hn⟩ := hr
  have hInv := RunnerInv_iterate exec n _ r evs (RunnerInv_new loadResult) hn
  exact ⟨RunnerInv_le_total r hInv,
    fun r' evs' h => success_step exec r r' evs' h⟩

def cC10 : JsonCourse :=
  ⟨"1.0", "c", "i", 0, [⟨"s", false, [⟨"t", false, "x", "f", "ok"⟩]⟩]⟩

/-- Witness for C10 at the freshly constructed runner of a one-test
course. -/
theorem success_counter_invariant_witness :
    Reachable (fun _ _ => TestResult.Pass "o")
      (TestRunner.new (.ok cC10)).1 (TestRunner.new (.ok cC10)).1 ∧
    (TestRunner.new (.ok cC10)).1.success ≤
      totalTests (TestRunner.new (.ok cC10)).1.course :=
  ⟨⟨0, [], rfl⟩, (success_counter_invariant (fun _ _ => TestResult.Pass "o")
    (.ok cC10) (TestRunner.new (.ok cC10)).1 ⟨0, [], rfl⟩).1⟩
